import Mathlib

set_option maxRecDepth 100000

/-!
Verification of the twilio-bridge repository: a shallow embedding of
`compat_audio.py` (μ-law codec and linear-interpolation resampler) and of the
session state machine of `main.py` (handshake, inbound loop, outbound pump,
barge-in coordinator, teardown), with theorems settling the spec's claims.
-/

namespace CompatAudio

/-- `_BIAS = 0x84` from compat_audio.py. -/
def bias : Int := 0x84

/-- `_CLIP = 32635` from compat_audio.py. -/
def clip : Int := 32635

/-- Embedding of `_linear2ulaw_sample`: one 16-bit PCM sample to an 8-bit
μ-law code.  Python's `~x & 0xFF` on the final composed byte `x < 256` equals
`x ^^^ 0xFF`. -/
def linear2ulaw_sample (sample : Int) : Nat :=
  let sign : Nat := if sample < 0 then 0x80 else 0
  let s1 : Int := if sample < 0 then (if -sample > 32767 then 32767 else -sample) else sample
  let s2 : Int := if s1 > clip then clip else s1
  let s3 : Nat := (s2 + bias).toNat
  let segment : Nat :=
    if s3 < 0x100 then 0
    else if s3 < 0x200 then 1
    else if s3 < 0x400 then 2
    else if s3 < 0x800 then 3
    else if s3 < 0x1000 then 4
    else if s3 < 0x2000 then 5
    else if s3 < 0x4000 then 6
    else 7
  let mantissa : Nat := (s3 >>> (segment + 3)) &&& 0x0F
  ((sign ||| (segment <<< 4)) ||| mantissa) ^^^ 0xFF

/-- Embedding of `_ulaw2linear_sample`: one μ-law code to a 16-bit PCM sample.
Python's `~ulaw & 0xFF` on a nonnegative `ulaw` equals `255 - ulaw % 256`. -/
def ulaw2linear_sample (ulaw : Nat) : Int :=
  let u : Nat := 255 - ulaw % 256
  let sign : Nat := u &&& 0x80
  let segment : Nat := (u >>> 4) &&& 0x07
  let mantissa : Nat := u &&& 0x0F
  let s1 : Int := (((mantissa ||| 0x10) <<< (segment + 3) : Nat) : Int) - bias
  let s2 : Int := if sign ≠ 0 then -s1 else s1
  if s2 > 32767 then 32767 else if s2 < -32768 then -32768 else s2

/-- `int.to_bytes(2, "little", signed=True)`: a 16-bit signed sample to its two
little-endian bytes (two's complement). -/
def to_bytes_le2 (s : Int) : List Nat :=
  let u : Nat := (s % 65536).toNat
  [u % 256, u / 256]

/-- `int.from_bytes(b, "little", signed=True)` on two bytes. -/
def from_bytes_le2 (b0 b1 : Nat) : Int :=
  let u : Nat := b0 % 256 + 256 * (b1 % 256)
  if u ≥ 32768 then (u : Int) - 65536 else (u : Int)

/-- The loop of `lin2ulaw`: decode consecutive little-endian byte pairs into
16-bit samples (the Python loop reads `fragment[i:i+2]` for even `i`). -/
def pcm_samples : List Nat → List Int
  | b0 :: b1 :: rest => from_bytes_le2 b0 b1 :: pcm_samples rest
  | _ => []

/-- Embedding of `lin2ulaw`: PCM16 (mono) bytes to G.711 μ-law bytes.
`raise ValueError` is embedded as `Except.error`. -/
def lin2ulaw (fragment : List Nat) (width : Int) : Except String (List Nat) :=
  if width ≠ 2 then
    .error "compat_audio.lin2ulaw only supports width=2 (16-bit PCM)."
  else if fragment.length % 2 ≠ 0 then
    .error "PCM fragment length must be even (16-bit samples)."
  else
    .ok ((pcm_samples fragment).map linear2ulaw_sample)

/-- The loop of `ulaw2lin`: each μ-law byte becomes the two little-endian bytes
of its decoded sample. -/
def ulaw_bytes : List Nat → List Nat
  | [] => []
  | u :: rest => to_bytes_le2 (ulaw2linear_sample u) ++ ulaw_bytes rest

/-- Embedding of `ulaw2lin`: G.711 μ-law bytes to PCM16 (mono) bytes. -/
def ulaw2lin (fragment : List Nat) (width : Int) : Except String (List Nat) :=
  if width ≠ 2 then
    .error "compat_audio.ulaw2lin only supports width=2 (16-bit PCM)."
  else
    .ok (ulaw_bytes fragment)

/-- Python 3 `round` (banker's rounding, half to even), on exact rationals:
the embedding idealises the source's float arithmetic by exact rational
arithmetic. -/
def pyRound (q : ℚ) : Int :=
  if q - ⌊q⌋ < 1/2 then ⌊q⌋
  else if q - ⌊q⌋ > 1/2 then ⌊q⌋ + 1
  else if ⌊q⌋ % 2 = 0 then ⌊q⌋ else ⌊q⌋ + 1

/-- The interpolation loop body of `ratecv`: output sample at index `j`. -/
def ratecv_sample (src : List Int) (n : Nat) (rq : ℚ) (j : Nat) : Int :=
  let pos : ℚ := (j : ℚ) / rq
  let i0 : Nat := (⌊pos⌋).toNat
  if i0 ≥ n - 1 then src.getLastD 0
  else
    let frac : ℚ := pos - (i0 : ℚ)
    pyRound ((src.getD i0 0 : ℚ) * (1 - frac) + (src.getD (i0 + 1) 0 : ℚ) * frac)

/-- Embedding of `ratecv` at the sample level (the Python function decodes the
byte fragment into the sample list `src` and re-encodes the output; the
embedding takes and returns the 16-bit sample sequences directly). -/
def ratecv (samples : List Int) (width channels inrate outrate : Int) :
    Except String (List Int) :=
  if width ≠ 2 then
    .error "compat_audio.ratecv only supports width=2 (16-bit PCM)."
  else if channels ≠ 1 then
    .error "compat_audio.ratecv only supports mono audio (channels=1)."
  else if inrate ≤ 0 ∨ outrate ≤ 0 then
    .error "Sample rates must be positive."
  else if inrate = outrate then
    .ok samples
  else
    let n := samples.length
    if n = 0 then .ok []
    else if n = 1 then
      let out_len : Nat := (pyRound ((n : ℚ) * (outrate : ℚ) / (inrate : ℚ))).toNat
      .ok (List.replicate out_len (samples.headD 0))
    else
      let rq : ℚ := (outrate : ℚ) / (inrate : ℚ)
      let out_len : Nat := (pyRound ((n : ℚ) * rq)).toNat
      .ok ((List.range out_len).map (ratecv_sample samples n rq))

end CompatAudio

namespace Bridge

/-- Outbound frames sent on the telephony (Twilio) WebSocket via
`ws.send_json`. -/
inductive TwilioOut where
  | connectedAck (encoding : String) (sampleRate : Nat) (channels : Nat)
  | media (streamSid : String) (payload : String)
  | mark (streamSid : String) (name : String)
  | clear (streamSid : String)
  deriving DecidableEq, Repr

/-- Messages sent on the OpenAI realtime WebSocket via `openai_ws.send`. -/
inductive OAIOut where
  | sessionUpdate
  | appendAudio (payload : String)
  | truncate (item_id : String) (content_index : Nat)
  deriving DecidableEq, Repr

/-- Observable actions of one bridge session, in program order. -/
inductive Action where
  | openaiConnect
  | twilioSend (frame : TwilioOut)
  | openaiSend (msg : OAIOut)
  | createPumpTask
  deriving DecidableEq, Repr

/-- Inbound telephony frames, classified by their `event` field.  A `start`
frame carries `data["start"].get("streamSid")` (possibly absent); a `media`
frame carries `data["media"]["payload"]`. -/
inductive TwilioEvent where
  | connected
  | start (streamSid : Option String)
  | media (payload : String)
  | mark
  | stop
  | other
  deriving DecidableEq, Repr

/-- Inbound OpenAI realtime events consumed by `pump_openai_to_twilio`:
`delta` is `resp.get("delta")`, `item_id` is `resp.get("item_id")`. -/
inductive OAIEvent where
  | outputAudioDelta (delta : Option String) (item_id : Option String)
  | speechStarted
  | other
  deriving DecidableEq, Repr

/-- The mutable per-call state of `_bridge_socket`: the closure variables
`stream_sid`, `last_assistant_item`, `mark_queue`, `openai_ws` (whether the
link object exists, and whether it is closed) and `pump_task`. -/
structure State where
  stream_sid : Option String
  last_assistant_item : Option String
  mark_queue : List String
  openai_ws : Bool
  openai_ws_closed : Bool
  pump_task : Bool
  deriving DecidableEq, Repr

/-- State at the top of `_bridge_socket`, right after `ws.accept()`. -/
def State.init : State :=
  { stream_sid := none, last_assistant_item := none, mark_queue := [],
    openai_ws := false, openai_ws_closed := false, pump_task := false }

/-- `initialize_session`: connect to OpenAI and send the `session.update`
configuration message. -/
def initialize_session (st : State) : State × List Action :=
  ({ st with openai_ws := true, openai_ws_closed := false },
   [Action.openaiConnect, Action.openaiSend .sessionUpdate])

/-- `send_mark`: no-op without a `stream_sid`; otherwise send a `mark` frame
and append `"responsePart"` to `mark_queue`. -/
def send_mark (st : State) : State × List Action :=
  match st.stream_sid with
  | none => (st, [])
  | some sid =>
      ({ st with mark_queue := st.mark_queue ++ ["responsePart"] },
       [Action.twilioSend (.mark sid "responsePart")])

/-- `handle_barge_in`.  The booleans say whether the `conversation.item.truncate`
send and the `clear` send raise; a raise jumps to the `except` handler, so
every assignment after the raising call is skipped. -/
def handle_barge_in (truncateRaises clearRaises : Bool) (st : State) :
    State × List Action :=
  match st.openai_ws, st.last_assistant_item with
  | true, some item =>
      if truncateRaises then (st, [])
      else
        match st.stream_sid with
        | some sid =>
            if clearRaises then (st, [Action.openaiSend (.truncate item 0)])
            else
              ({ st with mark_queue := [], last_assistant_item := none },
               [Action.openaiSend (.truncate item 0), Action.twilioSend (.clear sid)])
        | none =>
            ({ st with last_assistant_item := none },
             [Action.openaiSend (.truncate item 0)])
  | _, _ => (st, [])

/-- One iteration of the `async for` body of `pump_openai_to_twilio`. -/
def pump_step (truncateRaises clearRaises : Bool) (st : State) (e : OAIEvent) :
    State × List Action :=
  match e with
  | .outputAudioDelta delta item_id =>
      match delta, st.stream_sid with
      | some payload, some sid =>
          let st1 :=
            match item_id with
            | some i =>
                if i ≠ "" ∧ some i ≠ st.last_assistant_item then
                  { st with last_assistant_item := some i }
                else st
            | none => st
          let (st2, a2) := send_mark st1
          (st2, Action.twilioSend (.media sid payload) :: a2)
      | _, _ => (st, [])
  | .speechStarted => handle_barge_in truncateRaises clearRaises st
  | .other => (st, [])

/-- One iteration of the Twilio → OpenAI `while` loop of `_bridge_socket`
on a non-`stop` event. -/
def twilio_step (st : State) (e : TwilioEvent) : State × List Action :=
  match e with
  | .start sid =>
      let st1 := { st with stream_sid := sid }
      if ¬st1.openai_ws then
        ({ (initialize_session st1).1 with pump_task := true },
         (initialize_session st1).2 ++ [Action.createPumpTask])
      else (st1, [])
  | .media payload =>
      let st1 : State :=
        if ¬st.openai_ws then { (initialize_session st).1 with pump_task := true }
        else st
      let a1 : List Action :=
        if ¬st.openai_ws then (initialize_session st).2 ++ [Action.createPumpTask]
        else []
      if st1.openai_ws ∧ ¬st1.openai_ws_closed then
        (st1, a1 ++ [Action.openaiSend (.appendAudio payload)])
      else (st1, a1)
  | .mark =>
      ({ st with mark_queue := st.mark_queue.tail }, [])
  | _ => (st, [])

/-- The Twilio → OpenAI `while` loop over a finite inbound frame sequence:
a `stop` event breaks out; everything else goes through `twilio_step`. -/
def run_loop (st : State) : List TwilioEvent → State × List Action
  | [] => (st, [])
  | e :: rest =>
      if e = .stop then (st, [])
      else
        ((run_loop (twilio_step st e).1 rest).1,
         (twilio_step st e).2 ++ (run_loop (twilio_step st e).1 rest).2)

/-- The handshake and main loop of `_bridge_socket`: read the first frame
(`none` means it did not parse into a frame, Python's `hello = {}`), ACK a
`connected` first frame, then re-queue the first frame as `pending` and run
the main loop on it followed by the remaining frames. -/
def bridge_run (first : Option TwilioEvent) (rest : List TwilioEvent) :
    State × List Action :=
  let ackActs : List Action :=
    match first with
    | some .connected =>
        [Action.twilioSend (.connectedAck "audio/x-mulaw" 8000 1)]
    | _ => []
  let pending : List TwilioEvent := match first with | some e => [e] | none => []
  let (stF, loopActs) := run_loop State.init (pending ++ rest)
  (stF, ackActs ++ loopActs)

/-- The three steps of the `finally` teardown block of `_bridge_socket`. -/
inductive TDStep where
  | closeOpenAI
  | cancelPump
  | closeTwilio
  deriving DecidableEq, Repr

/-- The `finally` block: each step is attempted under its own
`try/except`; the boolean flag recorded with a step says whether that attempt
raised (and was swallowed).  `await openai_ws.close()` is attempted only when
the link exists and is not closed; `pump_task.cancel()` only when the pump
task exists; `await ws.close()` always. -/
def teardown (hasLink linkClosed hasPump : Bool)
    (closeLinkRaises cancelRaises closeWsRaises : Bool) :
    List (TDStep × Bool) :=
  (if hasLink && !linkClosed then [(TDStep.closeOpenAI, closeLinkRaises)] else []) ++
  (if hasPump then [(TDStep.cancelPump, cancelRaises)] else []) ++
  [(TDStep.closeTwilio, closeWsRaises)]

/-- Number of Inference Link creations (`websockets.connect` calls) in an
action trace. -/
def countConnects (acts : List Action) : Nat :=
  acts.countP (fun a => a = Action.openaiConnect)

/-- Whether an action is the format-acknowledgment reply of the handshake. -/
def isConnectedAck : Action → Bool
  | .twilioSend (.connectedAck _ _ _) => true
  | _ => false

end Bridge

open CompatAudio Bridge

/-- C1 (counterexample): the compand/expand round trip is not the identity on
the full 8-bit domain: at the companded byte 0xFF it returns 0x7E, and at 0x7F
it returns 0xFE. -/
theorem roundtrip_fails_at_0xFF :
    linear2ulaw_sample (ulaw2linear_sample 0xFF) = 0x7E ∧ (0x7E : Nat) ≠ 0xFF ∧
    linear2ulaw_sample (ulaw2linear_sample 0x7F) = 0xFE ∧ (0xFE : Nat) ≠ 0x7F := by
  decide

/-- C1 (amended): for every companded byte b other than 0x7F and 0xFF,
compand(expand(b)) = b. -/
theorem roundtrip_identity_except_two (b : Nat) (hb : b < 256)
    (h7F : b ≠ 0x7F) (hFF : b ≠ 0xFF) :
    linear2ulaw_sample (ulaw2linear_sample b) = b := by
  revert hb h7F hFF
  revert b
  decide

/-- C1 witness: the round trip at the companded byte 0x2A. -/
theorem roundtrip_identity_except_two_witness :
    0x2A < 256 ∧ (0x2A : Nat) ≠ 0x7F ∧ (0x2A : Nat) ≠ 0xFF ∧
    linear2ulaw_sample (ulaw2linear_sample 0x2A) = 0x2A :=
  ⟨by decide, by decide, by decide,
   roundtrip_identity_except_two 0x2A (by decide) (by decide) (by decide)⟩

/-- C2: the code expands the companded byte 0xFF to the linear sample -4, not
to 0 as the claim (and G.711, which the module docstring cites) requires. -/
theorem ulaw2linear_at_0xFF : ulaw2linear_sample 0xFF = -4 := by decide

/-- C3 (counterexample): with a live link and a running pump, the teardown
attempts are ordered close-the-Inference-Link first, then cancel the Outbound
Pump, then close the telephony socket — not cancel-the-pump first as claimed. -/
theorem teardown_order_counterexample :
    (teardown true false true false false false).map Prod.fst =
      [TDStep.closeOpenAI, TDStep.cancelPump, TDStep.closeTwilio] ∧
    [TDStep.closeOpenAI, TDStep.cancelPump, TDStep.closeTwilio] ≠
      [TDStep.cancelPump, TDStep.closeOpenAI, TDStep.closeTwilio] := by
  decide

/-- C3 (amended): teardown attempts the steps in the order close the Inference
Link, cancel the Outbound Pump task, close the telephony WebSocket, and a
raise in any step (each swallowed by its own handler) never removes a later
step from the attempted sequence. -/
theorem teardown_order_and_isolation :
    ∀ closeLinkRaises cancelRaises closeWsRaises : Bool,
      (teardown true false true closeLinkRaises cancelRaises closeWsRaises).map
          Prod.fst =
        [TDStep.closeOpenAI, TDStep.cancelPump, TDStep.closeTwilio] := by
  decide

/-- C8: a sample width other than 2 makes lin2ulaw, ulaw2lin and ratecv return
a configuration error — for ratecv at every channel count, mono included —
and a channel count other than 1 makes ratecv return a configuration error,
in each case with no converted output. -/
theorem config_error_rejection (w c : Int) (f : List Nat) (samples : List Int)
    (inrate outrate : Int) (hw : w ≠ 2) (hc : c ≠ 1) :
    (∃ e, lin2ulaw f w = .error e) ∧
    (∃ e, ulaw2lin f w = .error e) ∧
    (∀ c2 : Int, ∃ e, ratecv samples w c2 inrate outrate = .error e) ∧
    (∃ e, ratecv samples 2 c inrate outrate = .error e) := by
  have h1 : lin2ulaw f w =
      .error "compat_audio.lin2ulaw only supports width=2 (16-bit PCM)." := by
    simp [lin2ulaw, hw]
  have h2 : ulaw2lin f w =
      .error "compat_audio.ulaw2lin only supports width=2 (16-bit PCM)." := by
    simp [ulaw2lin, hw]
  have h3 : ∀ c2 : Int, ratecv samples w c2 inrate outrate =
      .error "compat_audio.ratecv only supports width=2 (16-bit PCM)." := by
    intro c2
    simp [ratecv, hw]
  have h4 : ratecv samples 2 c inrate outrate =
      .error "compat_audio.ratecv only supports mono audio (channels=1)." := by
    simp [ratecv, hc]
  exact ⟨⟨_, h1⟩, ⟨_, h2⟩, fun c2 => ⟨_, h3 c2⟩, ⟨_, h4⟩⟩

/-- C8 witness: width 3 is rejected on mono (channel count 1) input as well,
and channel count 2 is rejected at width 2. -/
theorem config_error_rejection_witness :
    (∃ e, lin2ulaw [0, 0] 3 = .error e) ∧
    (∃ e, ulaw2lin [0, 0] 3 = .error e) ∧
    (∃ e, ratecv [0] 3 1 8000 16000 = .error e) ∧
    (∃ e, ratecv [0] 2 2 8000 16000 = .error e) :=
  ⟨(config_error_rejection 3 2 [0, 0] [0] 8000 16000 (by decide) (by decide)).1,
   (config_error_rejection 3 2 [0, 0] [0] 8000 16000 (by decide) (by decide)).2.1,
   (config_error_rejection 3 2 [0, 0] [0] 8000 16000 (by decide) (by decide)).2.2.1 1,
   (config_error_rejection 3 2 [0, 0] [0] 8000 16000 (by decide) (by decide)).2.2.2⟩

/-- C10: a response.output_audio.delta event arriving while stream_sid is
still unset is dropped whole: no frame is sent either way, the mark queue is
untouched and last_assistant_item keeps its value. -/
theorem delta_dropped_without_stream_sid (st : State)
    (delta item_id : Option String) (tr cr : Bool)
    (h : st.stream_sid = none) :
    pump_step tr cr st (.outputAudioDelta delta item_id) = (st, []) := by
  rcases st with ⟨ssid, lai, mq, ws, wsc, pt⟩
  simp only at h
  subst h
  cases delta <;> rfl

/-- C10 witness: a delta event against the initial session state. -/
theorem delta_dropped_without_stream_sid_witness :
    pump_step false false State.init
      (.outputAudioDelta (some "AAAA") (some "item_1")) = (State.init, []) :=
  delta_dropped_without_stream_sid State.init (some "AAAA") (some "item_1")
    false false (by rfl)

lemma countConnects_append (l1 l2 : List Action) :
    countConnects (l1 ++ l2) = countConnects l1 + countConnects l2 :=
  List.countP_append _ _ _

lemma twilio_step_openai_mono (st : State) (e : TwilioEvent)
    (h : st.openai_ws = true) :
    (twilio_step st e).1.openai_ws = true ∧
    countConnects (twilio_step st e).2 = 0 := by
  cases e <;>
    simp [twilio_step, initialize_session, countConnects, h] <;>
    split_ifs <;> simp [h]

lemma twilio_step_openai_new (st : State) (e : TwilioEvent)
    (h : st.openai_ws = false) :
    (countConnects (twilio_step st e).2 = 0 ∧
      (twilio_step st e).1.openai_ws = false) ∨
    (countConnects (twilio_step st e).2 = 1 ∧
      (twilio_step st e).1.openai_ws = true) := by
  cases e <;>
    simp [twilio_step, initialize_session, countConnects, h]

lemma run_loop_connects (evs : List TwilioEvent) : ∀ st : State,
    (st.openai_ws = true → countConnects (run_loop st evs).2 = 0) ∧
    (st.openai_ws = false → countConnects (run_loop st evs).2 ≤ 1) := by
  induction evs with
  | nil => intro st; simp [run_loop, countConnects]
  | cons e rest ih =>
      intro st
      by_cases he : e = .stop
      · simp [run_loop, he, countConnects]
      · constructor
        · intro h
          have hs := twilio_step_openai_mono st e h
          have h2 := (ih (twilio_step st e).1).1 hs.1
          simp [run_loop, he, countConnects_append, hs.2, h2]
        · intro h
          rcases twilio_step_openai_new st e h with ⟨hc, hw⟩ | ⟨hc, hw⟩
          · have h2 := (ih (twilio_step st e).1).2 hw
            simp only [run_loop, he, if_false, countConnects_append, hc,
              Nat.zero_add]
            exact h2
          · have h2 := (ih (twilio_step st e).1).1 hw
            simp [run_loop, he, countConnects_append, hc, h2]

/-- C4: over any inbound frame sequence a session creates at most one
Inference Link, and once the link exists no inbound frame creates another
(initialize_session never runs twice). -/
theorem single_link_creation :
    (∀ evs : List TwilioEvent,
      countConnects (run_loop State.init evs).2 ≤ 1) ∧
    (∀ (st : State) (sid : Option String) (p : String), st.openai_ws = false →
      countConnects (twilio_step st (.start sid)).2 = 1 ∧
      countConnects (twilio_step st (.media p)).2 = 1) ∧
    (∀ (st : State) (e : TwilioEvent), st.openai_ws = true →
      countConnects (twilio_step st e).2 = 0) := by
  refine ⟨?_, ?_, ?_⟩
  · intro evs
    exact (run_loop_connects evs State.init).2 rfl
  · intro st sid p h
    constructor <;> simp [twilio_step, initialize_session, countConnects, h]
  · intro st e h
    exact (twilio_step_openai_mono st e h).2

/-- C4 witness: a run where both a media frame and a start frame arrive
before the link exists, and a step from a state that already has a link. -/
theorem single_link_creation_witness :
    countConnects (run_loop State.init
      [TwilioEvent.connected, TwilioEvent.media "QUFB",
       TwilioEvent.start (some "MZ1"), TwilioEvent.media "QUFB"]).2 ≤ 1 ∧
    (countConnects (twilio_step State.init
        (TwilioEvent.start (some "MZ1"))).2 = 1 ∧
      countConnects (twilio_step State.init (TwilioEvent.media "QUFB")).2 = 1) ∧
    countConnects (twilio_step { State.init with openai_ws := true }
      (TwilioEvent.start (some "MZ1"))).2 = 0 :=
  ⟨single_link_creation.1 _, single_link_creation.2.1 _ _ _ rfl,
   single_link_creation.2.2 _ _ rfl⟩

/-- C5: with a live link, an in-flight utterance id, a known stream id and
both remote sends succeeding, a speech-started event runs the barge-in
handler, which sends exactly one truncate command upstream and one clear
frame downstream, empties the mark queue and clears the in-flight id. -/
theorem barge_in_effect (st : State) (item sid : String)
    (hws : st.openai_ws = true) (hitem : st.last_assistant_item = some item)
    (hsid : st.stream_sid = some sid) :
    pump_step false false st .speechStarted = handle_barge_in false false st ∧
    handle_barge_in false false st =
      ({ st with mark_queue := [], last_assistant_item := none },
       [Action.openaiSend (.truncate item 0),
        Action.twilioSend (.clear sid)]) := by
  refine ⟨rfl, ?_⟩
  rcases st with ⟨ssid, lai, mq, ws, wsc, pt⟩
  simp only at hws hitem hsid
  subst hws hitem hsid
  rfl

/-- C5 witness: barge-in from a concrete active session state. -/
theorem barge_in_effect_witness :
    pump_step false false
        (State.mk (some "MZ1") (some "item_7") ["responsePart"] true false true)
        .speechStarted =
      handle_barge_in false false
        (State.mk (some "MZ1") (some "item_7") ["responsePart"] true false true) ∧
    handle_barge_in false false
        (State.mk (some "MZ1") (some "item_7") ["responsePart"] true false true) =
      ({ State.mk (some "MZ1") (some "item_7") ["responsePart"] true false true
          with mark_queue := [], last_assistant_item := none },
       [Action.openaiSend (.truncate "item_7" 0),
        Action.twilioSend (.clear "MZ1")]) :=
  barge_in_effect _ "item_7" "MZ1" rfl rfl rfl

lemma twilio_step_no_ack (st : State) (e : TwilioEvent) :
    (twilio_step st e).2.countP (fun a => isConnectedAck a) = 0 := by
  cases e <;>
    simp [twilio_step, initialize_session, isConnectedAck] <;>
    split_ifs <;> simp [isConnectedAck]

lemma run_loop_no_ack (evs : List TwilioEvent) : ∀ st : State,
    (run_loop st evs).2.countP (fun a => isConnectedAck a) = 0 := by
  induction evs with
  | nil => intro st; simp [run_loop]
  | cons e rest ih =>
      intro st
      by_cases he : e = .stop
      · simp [run_loop, he]
      · simp [run_loop, he, List.countP_append, twilio_step_no_ack, ih]

/-- C6: a first frame reporting a connected event is answered with exactly one
format-acknowledgment frame declaring audio/x-mulaw at 8000 Hz mono, placed
before all main-loop traffic, and the first frame is then re-queued into the
main loop; a first frame that is already a start event gets no ack, is
re-queued, and its streamSid is captured by the loop. -/
theorem handshake_ack_and_requeue (sid : String) (rest : List TwilioEvent) :
    (bridge_run (some .connected) rest).2 =
      Action.twilioSend (.connectedAck "audio/x-mulaw" 8000 1) ::
        (run_loop State.init (TwilioEvent.connected :: rest)).2 ∧
    (bridge_run (some .connected) rest).2.countP
        (fun a => isConnectedAck a) = 1 ∧
    (bridge_run (some (.start (some sid))) rest).2 =
      (run_loop State.init (TwilioEvent.start (some sid) :: rest)).2 ∧
    (run_loop State.init [TwilioEvent.start (some sid)]).1.stream_sid =
      some sid := by
  refine ⟨rfl, ?_, rfl, ?_⟩
  · show (Action.twilioSend (.connectedAck "audio/x-mulaw" 8000 1) ::
        (run_loop State.init (TwilioEvent.connected :: rest)).2).countP
        (fun a => isConnectedAck a) = 1
    rw [List.countP_cons, run_loop_no_ack]
    rfl
  · simp [run_loop, twilio_step, initialize_session, State.init]

lemma ulaw_bytes_length (l : List Nat) :
    (ulaw_bytes l).length = 2 * l.length := by
  induction l with
  | nil => rfl
  | cons u rest ih =>
      simp [ulaw_bytes, to_bytes_le2, ih]
      ring

lemma pcm_samples_length (l : List Nat) :
    (pcm_samples l).length = l.length / 2 := by
  induction l using pcm_samples.induct with
  | case1 b0 b1 rest ih =>
      simp [pcm_samples, ih]
      omega
  | case2 l h =>
      cases l with
      | nil => simp [pcm_samples]
      | cons b tl =>
          cases tl with
          | nil => simp [pcm_samples]
          | cons b1 r => exact absurd rfl (h b b1 r)

/-- C9: ulaw2lin emits exactly two bytes per companded byte, and lin2ulaw
emits exactly one companded byte per 16-bit sample of an even-length PCM
fragment. -/
theorem codec_length_exact (f g : List Nat) (hg : g.length % 2 = 0) :
    (∃ o, ulaw2lin f 2 = .ok o ∧ o.length = 2 * f.length) ∧
    (∃ o, lin2ulaw g 2 = .ok o ∧ o.length = g.length / 2) := by
  constructor
  · exact ⟨_, by simp [ulaw2lin], ulaw_bytes_length f⟩
  · have h1 : lin2ulaw g 2 =
        .ok ((pcm_samples g).map linear2ulaw_sample) := by
      simp [lin2ulaw, hg]
    exact ⟨_, h1, by simp [List.length_map, pcm_samples_length]⟩

/-- C9 witness: one μ-law byte and one two-byte PCM sample. -/
theorem codec_length_exact_witness :
    (∃ o, ulaw2lin [255] 2 = .ok o ∧ o.length = 2 * [255].length) ∧
    (∃ o, lin2ulaw [0, 0] 2 = .ok o ∧ o.length = [0, 0].length / 2) :=
  codec_length_exact [255] [0, 0] (by decide)

lemma pyRound_intCast (m : Int) : pyRound (m : ℚ) = m := by
  unfold pyRound
  rw [Int.floor_intCast, sub_self]
  norm_num

lemma pyRound_natCast (n : Nat) : pyRound (n : ℚ) = n := by
  simpa using pyRound_intCast (n : Int)

lemma pyRound_oneQ : pyRound (1 : ℚ) = 1 := by
  simpa using pyRound_intCast 1

lemma pyRound_zeroQ : pyRound (0 : ℚ) = 0 := by
  simpa using pyRound_intCast 0

/-- C7: for positive rates the resampler succeeds and its output length is
exactly the banker-rounded value of inputLength * outRate / inRate; zero input
samples give zero output samples, and a single input sample is replicated to
the computed output length. -/
theorem ratecv_output_length (samples : List Int) (inrate outrate : Int)
    (hin : 0 < inrate) (hout : 0 < outrate) :
    ∃ out, ratecv samples 2 1 inrate outrate = .ok out ∧
      out.length =
        (pyRound ((samples.length : ℚ) * (outrate : ℚ) / (inrate : ℚ))).toNat ∧
      (samples.length = 0 → out = []) ∧
      (∀ s, samples = [s] →
        out = List.replicate (pyRound ((outrate : ℚ) / (inrate : ℚ))).toNat s) := by
  have hno : ¬(inrate ≤ 0 ∨ outrate ≤ 0) := by
    push_neg
    exact ⟨hin, hout⟩
  have hinQ : (inrate : ℚ) ≠ 0 := Int.cast_ne_zero.mpr hin.ne'
  by_cases heq : inrate = outrate
  case pos =>
    subst heq
    have hlen : (samples.length : ℚ) * (inrate : ℚ) / (inrate : ℚ) =
        (samples.length : ℚ) := by
      field_simp
    refine ⟨samples, ?_, ?_, ?_, ?_⟩
    · simp [ratecv, hno, hin]
    · rw [hlen, pyRound_natCast]
      simp
    · intro h
      exact List.length_eq_zero.mp h
    · intro s hs
      subst hs
      rw [div_self hinQ, pyRound_oneQ]
      rfl
  case neg =>
    rcases samples with _ | ⟨s, tl⟩
    · refine ⟨[], ?_, ?_, ?_, ?_⟩
      · simp [ratecv, hno, heq]
      · simp [pyRound_zeroQ]
      · intro _
        rfl
      · intro s hs
        exact absurd hs (by simp)
    · rcases tl with _ | ⟨t, rest⟩
      · have h1 : ratecv [s] 2 1 inrate outrate =
            .ok (List.replicate
              (pyRound ((([s].length : Nat) : ℚ) * (outrate : ℚ) / (inrate : ℚ))).toNat s) := by
          simp [ratecv, hno, heq]
        refine ⟨_, h1, ?_, ?_, ?_⟩
        · simp
        · intro h
          simp at h
        · intro s2 hs
          have hss : s = s2 := by
            injection hs
          subst hss
          simp
      · have h2 : ratecv (s :: t :: rest) 2 1 inrate outrate =
            .ok ((List.range
                (pyRound (((s :: t :: rest).length : ℚ) *
                  ((outrate : ℚ) / (inrate : ℚ)))).toNat).map
              (ratecv_sample (s :: t :: rest) (s :: t :: rest).length
                ((outrate : ℚ) / (inrate : ℚ)))) := by
          simp [ratecv, hno, heq]
        refine ⟨_, h2, ?_, ?_, ?_⟩
        · simp [List.length_map, List.length_range, mul_div_assoc]
        · intro h
          simp at h
        · intro s2 hs
          exact absurd hs (by simp)

/-- C7 witness: the two-sample fragment [0, 1000] upsampled 8000 to 16000. -/
theorem ratecv_output_length_witness :
    ∃ out, ratecv [0, 1000] 2 1 8000 16000 = .ok out ∧
      out.length =
        (pyRound ((([0, 1000] : List Int).length : ℚ) * ((16000 : Int) : ℚ) /
          ((8000 : Int) : ℚ))).toNat ∧
      (([0, 1000] : List Int).length = 0 → out = []) ∧
      (∀ s, ([0, 1000] : List Int) = [s] →
        out = List.replicate
          (pyRound (((16000 : Int) : ℚ) / ((8000 : Int) : ℚ))).toNat s) :=
  ratecv_output_length [0, 1000] 8000 16000 (by decide) (by decide)
